import Mathlib

/-!
Verification of the pytest-data layered merge resolver.

The repository has two near-duplicate modules:
  * `pytest_data/functions.py` — `get_data` with a fifth, highest-priority
    `request.param` layer, and `use_data` with an assert that the decorated
    function's name starts with "test";
  * `pytest_data/__init__.py` — `get_data` without the param layer, and
    `use_data` without the naming check.

We embed both, in namespaces `Functions` and `Init`.
-/

namespace PytestData

/-- A Python dict with string keys, modelled as an insertion-ordered
association list.  Dicts produced by the Python runtime have unique keys;
user-supplied layers carry a `keysNodup` hypothesis where it matters. -/
abbrev PyDict (α : Type) : Type := List (String × α)

/-- Python `d[k]` as an option: value of the first pair with key `k`. -/
def dictGet {α : Type} (d : PyDict α) (k : String) : Option α :=
  (d.find? (fun p => p.1 == k)).map Prod.snd

/-- Python `d[k] = v`: replace the value in place when the key is present,
append the pair otherwise. -/
def dictSet {α : Type} (d : PyDict α) (k : String) (v : α) : PyDict α :=
  if d.any (fun p => p.1 == k) then
    d.map (fun p => if p.1 == k then (k, v) else p)
  else
    d ++ [(k, v)]

/-- Python `d.update(item)`: insert or replace every key of `item`, in
`item`'s order. -/
def dictUpdate {α : Type} (d item : PyDict α) : PyDict α :=
  item.foldl (fun acc p => dictSet acc p.1 p.2) d

/-- The keys of a dict are pairwise distinct (true of every real Python
dict; our association-list model can express violations, so theorems about
user-supplied layers assume it). -/
def keysNodup {α : Type} (d : PyDict α) : Prop :=
  (d.map Prod.fst).Nodup

instance {α : Type} (d : PyDict α) : Decidable (keysNodup d) := by
  unfold keysNodup; infer_instance

/-- A Python value as seen by `_getter`'s isinstance dispatch: a dict, a
list of dicts, or anything else (carrying its Python type name, which is
all the error message uses). -/
inductive Attr (α : Type) : Type
  | dict : PyDict α → Attr α
  | list : List (PyDict α) → Attr α
  | other : String → Attr α
  deriving DecidableEq

/-- The two container shapes `_getter` type-checks against (the type of its
`default` argument: `dict` or `list`). -/
inductive Shape : Type
  | dict : Shape
  | list : Shape
  deriving DecidableEq

/-- The empty value of a shape: `{}` or `[]`, the `default` passed to
`_getter` by each branch of `get_data`. -/
def shapeDefault {α : Type} : Shape → Attr α
  | .dict => .dict []
  | .list => .list []

/-- Python `isinstance(value, value_type)` for the two shapes. -/
def shapeMatches {α : Type} : Attr α → Shape → Bool
  | .dict _, .dict => true
  | .list _, .list => true
  | _, _ => false

/-- The errors the library raises.  `typeConflict` is
`ValueError('{}.{} should be {}')` from `_getter`; `unsupported` is
`ValueError('{} is not supported')` from `get_data`; `assertionFailed` is
the `assert` in `functions.py`'s `use_data`. -/
inductive PyError : Type
  | typeConflict : String → String → Shape → PyError
  | unsupported : String → PyError
  | assertionFailed : String → PyError
  deriving DecidableEq

/-- An attribute-bearing Python object (module, class, function): a name
(standing for its repr, used in error messages) and its attribute dict. -/
structure Obj (α : Type) : Type where
  name : String
  attrs : PyDict (Attr α)
  deriving DecidableEq

/-- Python `getattr(o, n, default)` without the default: `none` when the
attribute is absent. -/
def objGetattr {α : Type} (o : Obj α) (n : String) : Option (Attr α) :=
  dictGet o.attrs n

/-- The pytest `request` fixture as `get_data` reads it: the three target
objects plus the optional `request.param`. -/
structure Request (α : Type) : Type where
  module : Obj α
  cls : Obj α
  function : Obj α
  param : Option (Attr α)
  deriving DecidableEq

/-- `_getter(target, attribute_name, default)` specialised to a dict-shaped
default (`{}`): `getattr` with the default, then the isinstance check
against `dict`, returning the dict or raising. -/
def getterDict {α : Type} (targetName attrName : String) (found : Option (Attr α)) :
    Except PyError (PyDict α) :=
  match found.getD (shapeDefault .dict) with
  | .dict d => .ok d
  | _ => .error (.typeConflict targetName attrName .dict)

/-- `_getter(target, attribute_name, default)` specialised to a list-shaped
default (`[]`). -/
def getterList {α : Type} (targetName attrName : String) (found : Option (Attr α)) :
    Except PyError (List (PyDict α)) :=
  match found.getD (shapeDefault .list) with
  | .list l => .ok l
  | _ => .error (.typeConflict targetName attrName .list)

/-- One iteration of `_merge`'s loop: Python's `if item:` skips falsy items
(`None` from an exhausted `zip_longest` slot, and empty dicts); any other
item is merged with `data.update(item)`. -/
def mergeStep {α : Type} (data : PyDict α) (item : Option (PyDict α)) : PyDict α :=
  match item with
  | none => data
  | some d => if d.isEmpty then data else dictUpdate data d

/-- `_merge(*dicts)`: start from a fresh `{}` and run the update loop over
the items in order. -/
def _merge {α : Type} (items : List (Option (PyDict α))) : PyDict α :=
  items.foldl mergeStep []

/-- `max(map(len, dicts))` (all call sites pass a non-empty `dicts`, so the
fold from 0 agrees with Python's `max`). -/
def maxLen {α : Type} (lists : List (List α)) : Nat :=
  (lists.map List.length).foldl Nat.max 0

/-- The `i`-th element produced for one slot of
`zip_longest(*map(cycle, dicts))`: `itertools.cycle` of a non-empty list
yields `l[i % len(l)]` forever, and of an empty list yields nothing, so
`zip_longest` fills that slot with `None`. -/
def cycleNth {α : Type} (l : List α) (i : Nat) : Option α :=
  if h : l.length = 0 then none
  else some (l.get ⟨i % l.length, Nat.mod_lt i (Nat.pos_of_ne_zero h)⟩)

/-- First-some choice on options (Python's precedence of a later
`dict.update` over earlier ones, read back-to-front). -/
def oElse {α : Type} : Option α → Option α → Option α
  | some v, _ => some v
  | none, y => y

/-- The value one merge item contributes for key `k`: nothing for a `None`
slot, its own binding otherwise. -/
def layerHit {α : Type} (k : String) (it : Option (PyDict α)) : Option α :=
  it.bind (fun d => dictGet d k)

/-- The binding for `k` coming from the LAST item (in priority order) that
carries `k`; `none` when no item does. -/
def lastHitO {α : Type} (items : List (Option (PyDict α))) (k : String) : Option α :=
  items.foldl (fun acc it => oElse (layerHit k it) acc) none

/-- `lastHitO` over plain layers: the value of `k` in the highest-priority
layer containing `k`. -/
def lastHit {α : Type} (layers : List (PyDict α)) (k : String) : Option α :=
  lastHitO (layers.map some) k

/-- The merge exactly as the spec words it: start from an empty mapping and,
in order, insert or replace every key of each layer into the accumulator. -/
def specFoldMerge {α : Type} (layers : List (PyDict α)) : PyDict α :=
  layers.foldl dictUpdate []

/-- The element a non-empty layer list contributes at row `i`: its entry at
`i` modulo its length (cyclic wraparound). -/
def cyc {α : Type} (l : List (PyDict α)) (i : Nat) : PyDict α :=
  l.getD (i % l.length) []

/-- The value `_getter` would see for a source fails the isinstance check
against shape `s` (absence never fails: the substituted default matches). -/
def shapeMismatch {α : Type} (s : Shape) (found : Option (Attr α)) : Bool :=
  !shapeMatches (found.getD (shapeDefault s)) s

/-- `name.startswith("test")` as the `assert` in `use_data` runs it,
modelled as a character-list prefix test (which, unlike
`String.startsWith`, evaluates by kernel reduction). -/
def pyStartsWith (s pre : String) : Bool :=
  pre.toList.isPrefixOf s.toList

/-- One iteration of heap-level `_merge`: read the item's cell, skip falsy
values, otherwise write `accumulator.update(item)` into the accumulator's
cell at address `base` — no other cell is ever written. -/
def mergeStepH {α : Type} (base : Nat) (hh : List (PyDict α)) (item : Option Nat) :
    List (PyDict α) :=
  match item with
  | none => hh
  | some ia =>
    let d := hh.getD ia []
    if d.isEmpty then hh
    else hh.set base (dictUpdate (hh.getD base []) d)

/-- Heap-level `_merge`, for the no-mutation claim: dicts live in a heap of
cells addressed by index, `data = {}` allocates a fresh cell at the end
(address `heap.length`), and the update loop runs over the item
addresses. -/
def mergeH {α : Type} (heap : List (PyDict α)) (items : List (Option Nat)) :
    List (PyDict α) × Nat :=
  (items.foldl (mergeStepH heap.length) (heap ++ [[]]), heap.length)

/-- The `setattr` loop of `use_data`'s wrapper: attach every `(key, value)`
pair of the decorator's kwargs onto the function object's attribute dict. -/
def setattrs {α : Type} (o : Obj α) (data : PyDict (Attr α)) : Obj α :=
  { o with attrs := dictUpdate o.attrs data }

/-- Read a function object out of the heap of function objects (function
objects are heap cells so that returning "the very same object" is
expressible as returning the same address). -/
def heapGetF {α : Type} (funcs : List (Obj α)) (a : Nat) : Obj α :=
  funcs.getD a ⟨"", []⟩

namespace Functions

/-- `get_data(request, attribute_name, default_data)` from
`pytest_data/functions.py`: dispatch on the type of `default_data`; collect
`[default_data, module, cls, function, request.param]` through `_getter`;
merge (dict branch) or cyclically align and merge row by row (list branch);
raise `ValueError` for any other default shape. -/
def get_data {α : Type} (request : Request α) (attribute_name : String)
    (default_data : Attr α) : Except PyError (Attr α) :=
  match default_data with
  | .dict dd => do
      let m ← getterDict request.module.name attribute_name
        (objGetattr request.module attribute_name)
      let c ← getterDict request.cls.name attribute_name
        (objGetattr request.cls attribute_name)
      let f ← getterDict request.function.name attribute_name
        (objGetattr request.function attribute_name)
      let p ← getterDict "request" "param" request.param
      pure (.dict (_merge [some dd, some m, some c, some f, some p]))
  | .list dl => do
      let m ← getterList request.module.name attribute_name
        (objGetattr request.module attribute_name)
      let c ← getterList request.cls.name attribute_name
        (objGetattr request.cls attribute_name)
      let f ← getterList request.function.name attribute_name
        (objGetattr request.function attribute_name)
      let p ← getterList "request" "param" request.param
      let dicts := [dl, m, c, f, p]
      pure (.list ((List.range (maxLen dicts)).map
        (fun i => _merge (dicts.map (fun l => cycleNth l i)))))
  | .other tyName => .error (.unsupported tyName)

/-- `use_data(**data)(func)` from `pytest_data/functions.py`: assert that the
function's name starts with "test" (raising `AssertionError` otherwise,
before any attribute is attached), then `setattr` each pair and return the
same function object (the same heap address). -/
def use_data {α : Type} (data : PyDict (Attr α)) (funcs : List (Obj α)) (func : Nat) :
    Except PyError (List (Obj α) × Nat) :=
  if pyStartsWith (heapGetF funcs func).name "test" then
    .ok (funcs.set func (setattrs (heapGetF funcs func) data), func)
  else
    .error (.assertionFailed "use_data can be used only for tests")

end Functions

namespace Init

/-- `get_data(request, attribute_name, default_data)` from
`pytest_data/__init__.py`: identical to the `functions.py` version except
that there is no `request.param` layer. -/
def get_data {α : Type} (request : Request α) (attribute_name : String)
    (default_data : Attr α) : Except PyError (Attr α) :=
  match default_data with
  | .dict dd => do
      let m ← getterDict request.module.name attribute_name
        (objGetattr request.module attribute_name)
      let c ← getterDict request.cls.name attribute_name
        (objGetattr request.cls attribute_name)
      let f ← getterDict request.function.name attribute_name
        (objGetattr request.function attribute_name)
      pure (.dict (_merge [some dd, some m, some c, some f]))
  | .list dl => do
      let m ← getterList request.module.name attribute_name
        (objGetattr request.module attribute_name)
      let c ← getterList request.cls.name attribute_name
        (objGetattr request.cls attribute_name)
      let f ← getterList request.function.name attribute_name
        (objGetattr request.function attribute_name)
      let dicts := [dl, m, c, f]
      pure (.list ((List.range (maxLen dicts)).map
        (fun i => _merge (dicts.map (fun l => cycleNth l i)))))
  | .other tyName => .error (.unsupported tyName)

/-- `use_data(**data)(func)` from `pytest_data/__init__.py`: no naming
check; `setattr` each pair and return the same function object. -/
def use_data {α : Type} (data : PyDict (Attr α)) (funcs : List (Obj α)) (func : Nat) :
    List (Obj α) × Nat :=
  (funcs.set func (setattrs (heapGetF funcs func) data), func)

end Init

instance exceptDecEq {ε γ : Type} [DecidableEq ε] [DecidableEq γ] :
    DecidableEq (Except ε γ) := fun x y =>
  match x, y with
  | .error a, .error b =>
    if h : a = b then .isTrue (by rw [h])
    else .isFalse (fun hh => h (Except.error.inj hh))
  | .error _, .ok _ => .isFalse (fun hh => Except.noConfusion hh)
  | .ok _, .error _ => .isFalse (fun hh => Except.noConfusion hh)
  | .ok a, .ok b =>
    if h : a = b then .isTrue (by rw [h])
    else .isFalse (fun hh => h (Except.ok.inj hh))

/-! Concrete sample inputs, used by the witness theorems. -/

/-- A sample request: dict-valued layers on all three targets, no param. -/
def reqD : Request Nat :=
  { module := ⟨"mod", [("cd", .dict [("b", 20), ("c", 30)])]⟩
    cls := ⟨"cls", [("cd", .dict [("c", 300), ("d", 400)])]⟩
    function := ⟨"fn", [("cd", .dict [("d", 4000), ("e", 5000)])]⟩
    param := none }

/-- `reqD` with a param layer carrying key `"e"`. -/
def reqP : Request Nat :=
  { reqD with param := some (.dict [("e", 9)]) }

/-- A sample request with list-valued layers of lengths 3, 1 and 2. -/
def reqL : Request Nat :=
  { module := ⟨"mod",
      [("cd", .list [[("b", 200)], [("b", 201)], [("b", 202)]])]⟩
    cls := ⟨"cls", [("cd", .list [[("c", 3000)]])]⟩
    function := ⟨"fn", [("cd", .list [[("d", 5)], [("d", 6)]])]⟩
    param := none }

/-- `reqL` with a one-element list param layer, so that all five layer
lists are non-empty. -/
def reqLP : Request Nat :=
  { reqL with param := some (.list [[("e", 1)]]) }

/-- A sample request carrying no data at all. -/
def reqN : Request Nat :=
  { module := ⟨"mod", []⟩
    cls := ⟨"cls", []⟩
    function := ⟨"fn", []⟩
    param := none }

/-- A sample request with one empty list layer among non-empty ones. -/
def reqE : Request Nat :=
  { module := ⟨"mod", [("cd", .list [[("b", 7)], [("b", 8)]])]⟩
    cls := ⟨"cls", [("cd", .list [])]⟩
    function := ⟨"fn", []⟩
    param := none }

/-- A sample request whose module value is a list while the default is a
dict (a shape conflict). -/
def reqX : Request Nat :=
  { module := ⟨"mod", [("cd", .list [])]⟩
    cls := ⟨"cls", []⟩
    function := ⟨"fn", []⟩
    param := none }

/-! ### Helper lemmas about options and dict operations -/

theorem oElse_none {α : Type} (x : Option α) : oElse x none = x := by
  cases x <;> rfl

theorem none_oElse {α : Type} (x : Option α) : oElse none x = x := rfl

theorem oElse_assoc {α : Type} (x y z : Option α) :
    oElse (oElse x y) z = oElse x (oElse y z) := by
  cases x <;> rfl

theorem dictGet_cons {α : Type} (p : String × α) (d : PyDict α) (k : String) :
    dictGet (p :: d) k = if p.1 = k then some p.2 else dictGet d k := by
  by_cases h : p.1 = k <;> simp [dictGet, List.find?_cons, h]

theorem dictGet_eq_none_of_not_mem {α : Type} {d : PyDict α} {k : String}
    (h : k ∉ d.map Prod.fst) : dictGet d k = none := by
  induction d with
  | nil => rfl
  | cons p rest ih =>
    simp only [List.map_cons, List.mem_cons, not_or] at h
    rw [dictGet_cons, if_neg (fun hh => h.1 hh.symm)]
    exact ih h.2

theorem dictGet_map_replace_ne {α : Type} (d : PyDict α) {k k' : String} (v : α)
    (h : k' ≠ k) :
    dictGet (d.map (fun p => if p.1 == k then (k, v) else p)) k' = dictGet d k' := by
  induction d with
  | nil => rfl
  | cons p rest ih =>
    rw [List.map_cons]
    by_cases hp : p.1 = k
    · rw [if_pos (by simp [hp]), dictGet_cons, dictGet_cons,
        if_neg (fun hh => h hh.symm), if_neg (by rw [hp]; exact fun hh => h hh.symm)]
      exact ih
    · rw [if_neg (by simp [hp]), dictGet_cons, dictGet_cons]
      by_cases hk : p.1 = k'
      · rw [if_pos hk, if_pos hk]
      · rw [if_neg hk, if_neg hk]
        exact ih

theorem dictGet_map_replace_eq {α : Type} {d : PyDict α} {k : String} (v : α)
    (h : d.any (fun p => p.1 == k) = true) :
    dictGet (d.map (fun p => if p.1 == k then (k, v) else p)) k = some v := by
  induction d with
  | nil => simp at h
  | cons p rest ih =>
    rw [List.map_cons]
    by_cases hp : p.1 = k
    · rw [if_pos (by simp [hp]), dictGet_cons, if_pos rfl]
    · have h' : rest.any (fun p => p.1 == k) = true := by
        rw [List.any_cons] at h
        cases hpk : (p.1 == k) with
        | true => exact absurd (eq_of_beq hpk) hp
        | false => rw [hpk, Bool.false_or] at h; exact h
      rw [if_neg (by simp [hp]), dictGet_cons, if_neg hp]
      exact ih h'

theorem dictGet_dictSet {α : Type} (d : PyDict α) (k k' : String) (v : α) :
    dictGet (dictSet d k v) k' = if k' = k then some v else dictGet d k' := by
  unfold dictSet
  by_cases h : d.any (fun p => p.1 == k) = true
  · rw [if_pos h]
    by_cases hk : k' = k
    · subst hk; rw [if_pos rfl]; exact dictGet_map_replace_eq v h
    · rw [if_neg hk]; exact dictGet_map_replace_ne d v hk
  · rw [if_neg h]
    have hnone : dictGet d k = none := by
      apply dictGet_eq_none_of_not_mem
      simp only [List.any_eq_true, beq_iff_eq, not_exists] at h
      intro hmem
      rcases List.mem_map.mp hmem with ⟨p, hp, hpk⟩
      exact h p ⟨hp, hpk⟩
    unfold dictGet
    rw [List.find?_append]
    by_cases hk : k' = k
    · rw [hk]
      have hfd : List.find? (fun p => p.1 == k) d = none := by
        unfold dictGet at hnone
        cases hfind : List.find? (fun p => p.1 == k) d with
        | none => rfl
        | some p => rw [hfind] at hnone; simp at hnone
      rw [hfd, if_pos rfl]
      simp [List.find?]
    · have hkk : (k == k') = false := by
        simp only [beq_eq_false_iff_ne, ne_eq]
        exact fun hh => hk hh.symm
      have hfind1 : List.find? (fun p => p.1 == k') [(k, v)] = none := by
        simp [List.find?, hkk]
      rw [hfind1, if_neg hk]
      cases List.find? (fun p => p.1 == k') d <;> rfl

theorem keysNodup_cons {α : Type} {p : String × α} {rest : PyDict α}
    (h : keysNodup (p :: rest)) : p.1 ∉ rest.map Prod.fst ∧ keysNodup rest := by
  unfold keysNodup at h ⊢
  simp only [List.map_cons, List.nodup_cons] at h
  exact h

theorem dictGet_dictUpdate {α : Type} {item : PyDict α} (hnd : keysNodup item)
    (d : PyDict α) (k : String) :
    dictGet (dictUpdate d item) k = oElse (dictGet item k) (dictGet d k) := by
  induction item generalizing d with
  | nil => rfl
  | cons p rest ih =>
    obtain ⟨hnp, hnd'⟩ := keysNodup_cons hnd
    show dictGet (dictUpdate (dictSet d p.1 p.2) rest) k = _
    rw [ih hnd', dictGet_cons, dictGet_dictSet]
    by_cases hk : k = p.1
    · subst hk
      rw [dictGet_eq_none_of_not_mem hnp, if_pos rfl, if_pos rfl]
      rfl
    · rw [if_neg hk, if_neg (fun hh => hk hh.symm)]

theorem dictGet_of_mem_nodup {α : Type} {d : PyDict α} {k : String} {v : α}
    (hnd : keysNodup d) (hmem : (k, v) ∈ d) : dictGet d k = some v := by
  induction d with
  | nil => simp at hmem
  | cons p rest ih =>
    obtain ⟨hnp, hnd'⟩ := keysNodup_cons hnd
    rw [dictGet_cons]
    rcases List.mem_cons.mp hmem with heq | hmem'
    · rw [← heq]; simp
    · have hk : p.1 ≠ k := by
        intro hh
        exact hnp (by rw [hh]; exact List.mem_map.mpr ⟨(k, v), hmem', rfl⟩)
      rw [if_neg hk]
      exact ih hnd' hmem'

/-! ### Helper lemmas about `_merge` -/

theorem lastHitO_foldl {α : Type} (k : String) (items : List (Option (PyDict α))) :
    ∀ a : Option α,
      items.foldl (fun acc it => oElse (layerHit k it) acc) a =
        oElse (lastHitO items k) a := by
  induction items with
  | nil => intro a; rfl
  | cons it rest ih =>
    intro a
    have h1 : (it :: rest).foldl (fun acc it => oElse (layerHit k it) acc) a =
        oElse (lastHitO rest k) (oElse (layerHit k it) a) := ih _
    have h2 : lastHitO (it :: rest) k =
        oElse (lastHitO rest k) (oElse (layerHit k it) none) := ih _
    rw [h1, h2, oElse_none, oElse_assoc]

theorem lastHitO_cons {α : Type} (k : String) (it : Option (PyDict α))
    (items : List (Option (PyDict α))) :
    lastHitO (it :: items) k = oElse (lastHitO items k) (layerHit k it) := by
  have h : lastHitO (it :: items) k =
      oElse (lastHitO items k) (oElse (layerHit k it) none) := lastHitO_foldl k items _
  rw [h, oElse_none]

theorem dictGet_mergeStep {α : Type} {it : Option (PyDict α)}
    (hnd : ∀ d, it = some d → keysNodup d) (acc : PyDict α) (k : String) :
    dictGet (mergeStep acc it) k = oElse (layerHit k it) (dictGet acc k) := by
  match it with
  | none => rfl
  | some [] => rfl
  | some (p :: ds) =>
    show dictGet (dictUpdate acc (p :: ds)) k = oElse (dictGet (p :: ds) k) (dictGet acc k)
    exact dictGet_dictUpdate (hnd _ rfl) acc k

theorem dictGet_merge_foldl {α : Type} (k : String) :
    ∀ (items : List (Option (PyDict α))), (∀ d, some d ∈ items → keysNodup d) →
      ∀ acc : PyDict α,
        dictGet (items.foldl mergeStep acc) k =
          oElse (lastHitO items k) (dictGet acc k) := by
  intro items
  induction items with
  | nil => intro _ acc; rfl
  | cons it rest ih =>
    intro hnd acc
    have hrest : ∀ d, some d ∈ rest → keysNodup d :=
      fun d hd => hnd d (List.mem_cons_of_mem _ hd)
    have h1 : dictGet ((it :: rest).foldl mergeStep acc) k =
        oElse (lastHitO rest k) (dictGet (mergeStep acc it) k) := ih hrest _
    rw [h1, dictGet_mergeStep (fun d hd => hnd d (hd ▸ List.mem_cons_self _ _)),
      lastHitO_cons, oElse_assoc]

theorem dictGet_merge {α : Type} {items : List (Option (PyDict α))}
    (hnd : ∀ d, some d ∈ items → keysNodup d) (k : String) :
    dictGet (_merge items) k = lastHitO items k := by
  have h : dictGet (_merge items) k = oElse (lastHitO items k) (dictGet [] k) :=
    dictGet_merge_foldl k items hnd []
  rw [h]
  exact oElse_none _

theorem merge_map_some {α : Type} (layers : List (PyDict α)) :
    _merge (layers.map some) = specFoldMerge layers := by
  rw [_merge, specFoldMerge, List.foldl_map]
  have h : ∀ (acc l : PyDict α), mergeStep acc (some l) = dictUpdate acc l := by
    intro acc l
    match l with
    | [] => rfl
    | p :: ds => rfl
  simp only [h]

/-! ### Unfolding `get_data` through its getter chain -/

theorem ok_bind {ε γ δ : Type} (a : γ) (g : γ → Except ε δ) :
    (Except.ok a >>= g) = g a := rfl

theorem get_data_dict_eq {α : Type} (req : Request α) (an : String)
    (dd m c f p : PyDict α)
    (hm : getterDict req.module.name an (objGetattr req.module an) = .ok m)
    (hc : getterDict req.cls.name an (objGetattr req.cls an) = .ok c)
    (hf : getterDict req.function.name an (objGetattr req.function an) = .ok f)
    (hp : getterDict "request" "param" req.param = .ok p) :
    Functions.get_data req an (.dict dd) =
      .ok (.dict (_merge ([dd, m, c, f, p].map some))) := by
  simp only [Functions.get_data, hm, hc, hf, hp, ok_bind, List.map_cons, List.map_nil]
  rfl

theorem get_data_list_eq {α : Type} (req : Request α) (an : String)
    (dl : List (PyDict α)) (m c f p : List (PyDict α))
    (hm : getterList req.module.name an (objGetattr req.module an) = .ok m)
    (hc : getterList req.cls.name an (objGetattr req.cls an) = .ok c)
    (hf : getterList req.function.name an (objGetattr req.function an) = .ok f)
    (hp : getterList "request" "param" req.param = .ok p) :
    Functions.get_data req an (.list dl) =
      .ok (.list ((List.range (maxLen [dl, m, c, f, p])).map
        (fun i => _merge ([dl, m, c, f, p].map (fun l => cycleNth l i))))) := by
  simp only [Functions.get_data, hm, hc, hf, hp, ok_bind]
  rfl

/-! ### The claims -/

/-- C1: in the dict branch, `get_data` returns exactly the mapping obtained
by starting from an empty mapping and folding `update` over
`[default_data, module, class, function, param]` in order
(`specFoldMerge`), so for every key the result holds the value of the last
(highest-priority) layer containing it and keys of earlier layers are
preserved (`lastHit`). -/
theorem get_data_dict_merges_layers_in_priority_order {α : Type}
    (req : Request α) (an : String) (dd m c f p : PyDict α)
    (hm : getterDict req.module.name an (objGetattr req.module an) = .ok m)
    (hc : getterDict req.cls.name an (objGetattr req.cls an) = .ok c)
    (hf : getterDict req.function.name an (objGetattr req.function an) = .ok f)
    (hp : getterDict "request" "param" req.param = .ok p)
    (hnd : ∀ d ∈ [dd, m, c, f, p], keysNodup d) :
    Functions.get_data req an (.dict dd) =
      .ok (.dict (specFoldMerge [dd, m, c, f, p])) ∧
    ∀ k, dictGet (specFoldMerge [dd, m, c, f, p]) k = lastHit [dd, m, c, f, p] k := by
  have hnd' : ∀ d, some d ∈ ([dd, m, c, f, p].map some) → keysNodup d := by
    intro d hd
    simp only [List.mem_map, Option.some.injEq] at hd
    obtain ⟨x, hx, rfl⟩ := hd
    exact hnd x hx
  constructor
  · rw [get_data_dict_eq req an dd m c f p hm hc hf hp, merge_map_some]
  · intro k
    rw [← merge_map_some, dictGet_merge hnd']
    rfl

/-- C1 witness: a concrete resolution with all five layers present. -/
theorem get_data_dict_merges_layers_in_priority_order_witness :
    Functions.get_data reqP "cd" (.dict [("a", 1), ("b", 2)]) =
      .ok (.dict (specFoldMerge
        [[("a", 1), ("b", 2)], [("b", 20), ("c", 30)], [("c", 300), ("d", 400)],
         [("d", 4000), ("e", 5000)], [("e", 9)]])) ∧
    ∀ k, dictGet (specFoldMerge
        [[("a", 1), ("b", 2)], [("b", 20), ("c", 30)], [("c", 300), ("d", 400)],
         [("d", 4000), ("e", 5000)], [("e", 9)]]) k =
      lastHit
        [[("a", 1), ("b", 2)], [("b", 20), ("c", 30)], [("c", 300), ("d", 400)],
         [("d", 4000), ("e", 5000)], [("e", 9)]] k :=
  get_data_dict_merges_layers_in_priority_order reqP "cd" _ _ _ _ _
    rfl rfl rfl rfl (by decide)

/-- C5: in the dict branch, every key present in the param mapping wins:
the resolved value at that key is the param layer's value, whatever the
default, module, class and function layers say. -/
theorem get_data_param_layer_wins {α : Type}
    (req : Request α) (an : String) (dd m c f p : PyDict α)
    (hm : getterDict req.module.name an (objGetattr req.module an) = .ok m)
    (hc : getterDict req.cls.name an (objGetattr req.cls an) = .ok c)
    (hf : getterDict req.function.name an (objGetattr req.function an) = .ok f)
    (hp : getterDict "request" "param" req.param = .ok p)
    (hnd : ∀ d ∈ [dd, m, c, f, p], keysNodup d)
    (k : String) (v : α) (hk : dictGet p k = some v) :
    ∃ d, Functions.get_data req an (.dict dd) = .ok (.dict d) ∧
      dictGet d k = some v := by
  have hnd' : ∀ d, some d ∈ ([dd, m, c, f, p].map some) → keysNodup d := by
    intro d hd
    simp only [List.mem_map, Option.some.injEq] at hd
    obtain ⟨x, hx, rfl⟩ := hd
    exact hnd x hx
  refine ⟨_, get_data_dict_eq req an dd m c f p hm hc hf hp, ?_⟩
  rw [dictGet_merge hnd']
  simp [lastHitO_cons, layerHit, hk, oElse, lastHitO]

/-- C5 witness: the param layer of `reqP` overrides key `"e"`. -/
theorem get_data_param_layer_wins_witness :
    ∃ d, Functions.get_data reqP "cd" (.dict [("a", 1), ("b", 2)]) =
      .ok (.dict d) ∧ dictGet d "e" = some 9 :=
  get_data_param_layer_wins reqP "cd" _ _ _ _ _ rfl rfl rfl rfl (by decide)
    "e" 9 (by decide)

/-- C6: a `default_data` that is neither a dict nor a list makes `get_data`
raise `ValueError('{} is not supported')` (the `UnsupportedShape` error). -/
theorem get_data_unsupported_shape_raises {α : Type}
    (req : Request α) (an tyName : String) :
    Functions.get_data req an (.other tyName) = .error (.unsupported tyName) := rfl

/-! ### The list branch: cyclic alignment -/

theorem cycleNth_of_ne_nil {α : Type} {l : List (PyDict α)} (h : l ≠ []) (i : Nat) :
    cycleNth l i = some (cyc l i) := by
  have hl : ¬ l.length = 0 := fun hh => h (List.length_eq_zero.mp hh)
  have hj : i % l.length < l.length := Nat.mod_lt i (Nat.pos_of_ne_zero hl)
  rw [cycleNth, dif_neg hl, cyc]
  congr 1
  rw [List.getD_eq_getElem?_getD, List.getElem?_eq_getElem hj, Option.getD_some,
    List.get_eq_getElem]

theorem cycleNth_mem {α : Type} {l : List α} {i : Nat} {d : α}
    (h : cycleNth l i = some d) : d ∈ l := by
  unfold cycleNth at h
  split at h
  · exact Option.noConfusion h
  · rw [Option.some.injEq] at h
    rw [← h]
    exact List.get_mem l _ _

theorem getD_range_map {γ : Type} (g : Nat → γ) {n i : Nat} (h : i < n) (dflt : γ) :
    ((List.range n).map g).getD i dflt = g i := by
  simp [List.getD_eq_getElem?_getD, List.getElem?_range, h]

theorem lastHitO_map_cycleNth {α : Type} (L : List (List (PyDict α))) (i : Nat)
    (k : String) :
    lastHitO (L.map (fun l => cycleNth l i)) k =
      lastHitO (((L.filter (fun l => !l.isEmpty)).map (fun l => cyc l i)).map some) k := by
  induction L with
  | nil => rfl
  | cons l rest ih =>
    rw [List.map_cons, List.filter_cons]
    by_cases hl : l = []
    · subst hl
      rw [if_neg (by simp), lastHitO_cons]
      have hnone : cycleNth ([] : List (PyDict α)) i = none := rfl
      rw [hnone]
      show oElse (lastHitO (rest.map (fun l => cycleNth l i)) k) none = _
      rw [oElse_none, ih]
    · rw [if_pos (by simp [hl]), List.map_cons, List.map_cons, lastHitO_cons,
        lastHitO_cons, ih, cycleNth_of_ne_nil hl]

/-- C2: in the list branch with every layer list non-empty, the result has
exactly `maxLen` rows and row `i` is the overwrite-merge, in priority
order, of each layer's element at index `i mod len(layer)`; and when every
layer list is empty the result is the empty list. -/
theorem get_data_list_cyclic_alignment {α : Type}
    (req : Request α) (an : String) (dl m c f p : List (PyDict α))
    (hm : getterList req.module.name an (objGetattr req.module an) = .ok m)
    (hc : getterList req.cls.name an (objGetattr req.cls an) = .ok c)
    (hf : getterList req.function.name an (objGetattr req.function an) = .ok f)
    (hp : getterList "request" "param" req.param = .ok p)
    (hnd : ∀ l ∈ [dl, m, c, f, p], ∀ d ∈ l, keysNodup d) :
    ((∀ l ∈ [dl, m, c, f, p], l ≠ []) →
      ∃ res, Functions.get_data req an (.list dl) = .ok (.list res) ∧
        res.length = maxLen [dl, m, c, f, p] ∧
        ∀ i, i < maxLen [dl, m, c, f, p] → ∀ k,
          dictGet (res.getD i []) k =
            lastHit ([dl, m, c, f, p].map (fun l => cyc l i)) k) ∧
    ((∀ l ∈ [dl, m, c, f, p], l = []) →
      Functions.get_data req an (.list dl) = .ok (.list [])) := by
  constructor
  · intro hne
    refine ⟨_, get_data_list_eq req an dl m c f p hm hc hf hp, by simp, ?_⟩
    intro i hi k
    rw [getD_range_map _ hi]
    have hndrow : ∀ d, some d ∈ ([dl, m, c, f, p].map (fun l => cycleNth l i)) →
        keysNodup d := by
      intro d hd
      simp only [List.mem_map] at hd
      obtain ⟨l, hl, hld⟩ := hd
      exact hnd l hl d (cycleNth_mem hld)
    rw [dictGet_merge hndrow]
    have hrow : [dl, m, c, f, p].map (fun l => cycleNth l i) =
        ([dl, m, c, f, p].map (fun l => cyc l i)).map some := by
      rw [List.map_map]
      exact List.map_congr_left (fun l hl => cycleNth_of_ne_nil (hne l hl) i)
    rw [hrow]
    rfl
  · intro hall
    have h1 : dl = [] := hall dl (by simp)
    have h2 : m = [] := hall m (by simp)
    have h3 : c = [] := hall c (by simp)
    have h4 : f = [] := hall f (by simp)
    have h5 : p = [] := hall p (by simp)
    subst h1 h2 h3 h4 h5
    rw [get_data_list_eq req an [] [] [] [] [] hm hc hf hp]
    rfl

/-- C2 witness: layers of lengths 1, 3, 1, 2, 1 (all non-empty) on `reqLP`,
and the all-empty case on the data-free `reqN`. -/
theorem get_data_list_cyclic_alignment_witness :
    (∃ res, Functions.get_data reqLP "cd" (.list [[("a", 1)]]) = .ok (.list res) ∧
      res.length = maxLen
        [[[("a", 1)]], [[("b", 200)], [("b", 201)], [("b", 202)]],
         [[("c", 3000)]], [[("d", 5)], [("d", 6)]], [[("e", 1)]]] ∧
      ∀ i, i < maxLen
        [[[("a", 1)]], [[("b", 200)], [("b", 201)], [("b", 202)]],
         [[("c", 3000)]], [[("d", 5)], [("d", 6)]], [[("e", 1)]]] → ∀ k,
        dictGet (res.getD i []) k =
          lastHit ([[[("a", 1)]], [[("b", 200)], [("b", 201)], [("b", 202)]],
            [[("c", 3000)]], [[("d", 5)], [("d", 6)]], [[("e", 1)]]].map
              (fun l => cyc l i)) k) ∧
    Functions.get_data reqN "cd" (.list []) = .ok (.list []) :=
  ⟨(get_data_list_cyclic_alignment reqLP "cd" _ _ _ _ _
      rfl rfl rfl rfl (by decide)).1 (by decide),
   (get_data_list_cyclic_alignment reqN "cd" _ _ _ _ _
      rfl rfl rfl rfl (by decide)).2 (by decide)⟩

/-- C3: in the list branch, an empty layer list contributes nothing at any
row (it is never cyclically wrapped and never replaced by the default):
every row is the priority-order merge of only the non-empty layers'
cyclically selected elements. -/
theorem get_data_list_empty_layer_contributes_nothing {α : Type}
    (req : Request α) (an : String) (dl m c f p : List (PyDict α))
    (hm : getterList req.module.name an (objGetattr req.module an) = .ok m)
    (hc : getterList req.cls.name an (objGetattr req.cls an) = .ok c)
    (hf : getterList req.function.name an (objGetattr req.function an) = .ok f)
    (hp : getterList "request" "param" req.param = .ok p)
    (hnd : ∀ l ∈ [dl, m, c, f, p], ∀ d ∈ l, keysNodup d)
    (_hsome : ∃ l ∈ [dl, m, c, f, p], l = [])
    (_hothers : ∃ l ∈ [dl, m, c, f, p], l ≠ []) :
    ∃ res, Functions.get_data req an (.list dl) = .ok (.list res) ∧
      res.length = maxLen [dl, m, c, f, p] ∧
      ∀ i, i < maxLen [dl, m, c, f, p] → ∀ k,
        dictGet (res.getD i []) k =
          lastHit (([dl, m, c, f, p].filter (fun l => !l.isEmpty)).map
            (fun l => cyc l i)) k := by
  refine ⟨_, get_data_list_eq req an dl m c f p hm hc hf hp, by simp, ?_⟩
  intro i hi k
  rw [getD_range_map _ hi]
  have hndrow : ∀ d, some d ∈ ([dl, m, c, f, p].map (fun l => cycleNth l i)) →
      keysNodup d := by
    intro d hd
    simp only [List.mem_map] at hd
    obtain ⟨l, hl, hld⟩ := hd
    exact hnd l hl d (cycleNth_mem hld)
  rw [dictGet_merge hndrow, lastHitO_map_cycleNth]
  rfl

/-- C3 witness: on `reqE` the class layer is the empty list while the
default and module layers are non-empty. -/
theorem get_data_list_empty_layer_contributes_nothing_witness :
    ∃ res, Functions.get_data reqE "cd" (.list [[("a", 1)]]) = .ok (.list res) ∧
      res.length = maxLen [[[("a", 1)]], [[("b", 7)], [("b", 8)]], [], [], []] ∧
      ∀ i, i < maxLen [[[("a", 1)]], [[("b", 7)], [("b", 8)]], [], [], []] → ∀ k,
        dictGet (res.getD i []) k =
          lastHit (([[[("a", 1)]], [[("b", 7)], [("b", 8)]], [], [], []].filter
            (fun l => !l.isEmpty)).map (fun l => cyc l i)) k :=
  get_data_list_empty_layer_contributes_nothing reqE "cd" _ _ _ _ _
    rfl rfl rfl rfl (by decide) (by decide) (by decide)

/-! ### Shape conflicts (C4) -/

theorem error_bind {ε γ δ : Type} (e : ε) (g : γ → Except ε δ) :
    (Except.error e >>= g) = .error e := rfl

theorem getterDict_spec {α : Type} (t a : String) (found : Option (Attr α)) :
    (shapeMismatch .dict found = true →
      getterDict t a found = .error (.typeConflict t a .dict)) ∧
    (shapeMismatch .dict found = false → ∃ d, getterDict t a found = .ok d) := by
  unfold getterDict shapeMismatch
  match found.getD (shapeDefault .dict) with
  | .dict d => exact ⟨fun h => by simp [shapeMatches] at h, fun _ => ⟨d, rfl⟩⟩
  | .list l => exact ⟨fun _ => rfl, fun h => by simp [shapeMatches] at h⟩
  | .other s => exact ⟨fun _ => rfl, fun h => by simp [shapeMatches] at h⟩

theorem getterList_spec {α : Type} (t a : String) (found : Option (Attr α)) :
    (shapeMismatch .list found = true →
      getterList t a found = .error (.typeConflict t a .list)) ∧
    (shapeMismatch .list found = false → ∃ l, getterList t a found = .ok l) := by
  unfold getterList shapeMismatch
  match found.getD (shapeDefault .list) with
  | .dict d => exact ⟨fun _ => rfl, fun h => by simp [shapeMatches] at h⟩
  | .list l => exact ⟨fun h => by simp [shapeMatches] at h, fun _ => ⟨l, rfl⟩⟩
  | .other s => exact ⟨fun _ => rfl, fun h => by simp [shapeMatches] at h⟩

/-- C4: whenever any candidate source (module, class, function, or
`request.param`) carries a value whose runtime shape does not match the
container type of `default_data`, `get_data` fails with the
`ValueError('{}.{} should be {}')` of `_getter` — an error naming an
offending source, the attribute looked up on it, and the expected shape —
and never returns a coerced value. -/
theorem get_data_shape_mismatch_raises_type_conflict {α : Type}
    (req : Request α) (an : String) (defaultData : Attr α) (s : Shape)
    (hs : shapeMatches defaultData s = true)
    (hmis : shapeMismatch s (objGetattr req.module an) = true ∨
            shapeMismatch s (objGetattr req.cls an) = true ∨
            shapeMismatch s (objGetattr req.function an) = true ∨
            shapeMismatch s req.param = true) :
    ∃ tgt attr found,
      Functions.get_data req an defaultData = .error (.typeConflict tgt attr s) ∧
      shapeMismatch s found = true ∧
      ((tgt = req.module.name ∧ attr = an ∧ found = objGetattr req.module an) ∨
       (tgt = req.cls.name ∧ attr = an ∧ found = objGetattr req.cls an) ∨
       (tgt = req.function.name ∧ attr = an ∧ found = objGetattr req.function an) ∨
       (tgt = "request" ∧ attr = "param" ∧ found = req.param)) := by
  cases s with
  | dict =>
    cases defaultData with
    | list l => simp [shapeMatches] at hs
    | other t => simp [shapeMatches] at hs
    | dict dd =>
      cases hM : shapeMismatch Shape.dict (objGetattr req.module an) with
      | true =>
        exact ⟨req.module.name, an, objGetattr req.module an,
          by simp only [Functions.get_data,
            (getterDict_spec req.module.name an _).1 hM, error_bind],
          hM, Or.inl ⟨rfl, rfl, rfl⟩⟩
      | false =>
        obtain ⟨m, hm⟩ := (getterDict_spec req.module.name an _).2 hM
        cases hC : shapeMismatch Shape.dict (objGetattr req.cls an) with
        | true =>
          exact ⟨req.cls.name, an, objGetattr req.cls an,
            by simp only [Functions.get_data, hm, ok_bind,
              (getterDict_spec req.cls.name an _).1 hC, error_bind],
            hC, Or.inr (Or.inl ⟨rfl, rfl, rfl⟩)⟩
        | false =>
          obtain ⟨c, hc⟩ := (getterDict_spec req.cls.name an _).2 hC
          cases hF : shapeMismatch Shape.dict (objGetattr req.function an) with
          | true =>
            exact ⟨req.function.name, an, objGetattr req.function an,
              by simp only [Functions.get_data, hm, hc, ok_bind,
                (getterDict_spec req.function.name an _).1 hF, error_bind],
              hF, Or.inr (Or.inr (Or.inl ⟨rfl, rfl, rfl⟩))⟩
          | false =>
            obtain ⟨f, hf⟩ := (getterDict_spec req.function.name an _).2 hF
            cases hP : shapeMismatch Shape.dict req.param with
            | true =>
              refine ⟨"request", "param", req.param,
                by simp only [Functions.get_data, hm, hc, hf, ok_bind,
                  (getterDict_spec "request" "param" req.param).1 hP, error_bind],
                hP, Or.inr (Or.inr (Or.inr ⟨rfl, rfl, rfl⟩))⟩
            | false =>
              exfalso
              rcases hmis with h | h | h | h <;> simp_all
  | list =>
    cases defaultData with
    | dict l => simp [shapeMatches] at hs
    | other t => simp [shapeMatches] at hs
    | list dl =>
      cases hM : shapeMismatch Shape.list (objGetattr req.module an) with
      | true =>
        exact ⟨req.module.name, an, objGetattr req.module an,
          by simp only [Functions.get_data,
            (getterList_spec req.module.name an _).1 hM, error_bind],
          hM, Or.inl ⟨rfl, rfl, rfl⟩⟩
      | false =>
        obtain ⟨m, hm⟩ := (getterList_spec req.module.name an _).2 hM
        cases hC : shapeMismatch Shape.list (objGetattr req.cls an) with
        | true =>
          exact ⟨req.cls.name, an, objGetattr req.cls an,
            by simp only [Functions.get_data, hm, ok_bind,
              (getterList_spec req.cls.name an _).1 hC, error_bind],
            hC, Or.inr (Or.inl ⟨rfl, rfl, rfl⟩)⟩
        | false =>
          obtain ⟨c, hc⟩ := (getterList_spec req.cls.name an _).2 hC
          cases hF : shapeMismatch Shape.list (objGetattr req.function an) with
          | true =>
            exact ⟨req.function.name, an, objGetattr req.function an,
              by simp only [Functions.get_data, hm, hc, ok_bind,
                (getterList_spec req.function.name an _).1 hF, error_bind],
              hF, Or.inr (Or.inr (Or.inl ⟨rfl, rfl, rfl⟩))⟩
          | false =>
            obtain ⟨f, hf⟩ := (getterList_spec req.function.name an _).2 hF
            cases hP : shapeMismatch Shape.list req.param with
            | true =>
              refine ⟨"request", "param", req.param,
                by simp only [Functions.get_data, hm, hc, hf, ok_bind,
                  (getterList_spec "request" "param" req.param).1 hP, error_bind],
                hP, Or.inr (Or.inr (Or.inr ⟨rfl, rfl, rfl⟩))⟩
            | false =>
              exfalso
              rcases hmis with h | h | h | h <;> simp_all

/-- C4 witness: `reqX`'s module carries a list under `"cd"` while the
default is a dict. -/
theorem get_data_shape_mismatch_raises_type_conflict_witness :
    ∃ tgt attr found,
      Functions.get_data reqX "cd" (.dict [("a", 1)]) =
        .error (.typeConflict tgt attr .dict) ∧
      shapeMismatch .dict found = true ∧
      ((tgt = reqX.module.name ∧ attr = "cd" ∧ found = objGetattr reqX.module "cd") ∨
       (tgt = reqX.cls.name ∧ attr = "cd" ∧ found = objGetattr reqX.cls "cd") ∨
       (tgt = reqX.function.name ∧ attr = "cd" ∧ found = objGetattr reqX.function "cd") ∨
       (tgt = "request" ∧ attr = "param" ∧ found = reqX.param)) :=
  get_data_shape_mismatch_raises_type_conflict reqX "cd" (.dict [("a", 1)]) .dict
    (by decide) (Or.inl (by decide))

/-! ### The heap model: `_merge` never mutates its inputs (C7) -/

theorem getD_append_left {γ : Type} (l1 l2 : List γ) (i : Nat) (dflt : γ)
    (h : i < l1.length) : (l1 ++ l2).getD i dflt = l1.getD i dflt := by
  simp [List.getD_eq_getElem?_getD, List.getElem?_append_left, h]

theorem getD_append_self {γ : Type} (l1 : List γ) (x dflt : γ) :
    (l1 ++ [x]).getD l1.length dflt = x := by
  simp [List.getD_eq_getElem?_getD]

theorem set_append_self {γ : Type} (l1 : List γ) (x y : γ) :
    (l1 ++ [x]).set l1.length y = l1 ++ [y] := by
  simp [List.set_append]

theorem mergeStepH_some {α : Type} (heap : List (PyDict α)) (acc : PyDict α)
    (ia : Nat) (hia : ia < heap.length) :
    mergeStepH heap.length (heap ++ [acc]) (some ia) =
      heap ++ [mergeStep acc (some (heap.getD ia []))] := by
  have hd : (heap ++ [acc]).getD ia [] = heap.getD ia [] :=
    getD_append_left heap [acc] ia [] hia
  show (if ((heap ++ [acc]).getD ia []).isEmpty = true then heap ++ [acc]
        else (heap ++ [acc]).set heap.length
          (dictUpdate ((heap ++ [acc]).getD heap.length [])
            ((heap ++ [acc]).getD ia []))) =
      heap ++ [mergeStep acc (some (heap.getD ia []))]
  rw [hd, getD_append_self, set_append_self]
  show _ = heap ++
    [if (heap.getD ia []).isEmpty = true then acc else dictUpdate acc (heap.getD ia [])]
  by_cases he : (heap.getD ia []).isEmpty = true
  · rw [if_pos he, if_pos he]
  · rw [if_neg he, if_neg he]

theorem mergeH_foldl {α : Type} (heap : List (PyDict α)) :
    ∀ (items : List (Option Nat)), (∀ ia, some ia ∈ items → ia < heap.length) →
      ∀ acc : PyDict α,
        items.foldl (mergeStepH heap.length) (heap ++ [acc]) =
          heap ++ [(items.map (Option.map (fun ia => heap.getD ia []))).foldl
            mergeStep acc] := by
  intro items
  induction items with
  | nil => intro _ acc; rfl
  | cons it rest ih =>
    intro hv acc
    have hrest : ∀ ia, some ia ∈ rest → ia < heap.length :=
      fun ia hia => hv ia (List.mem_cons_of_mem _ hia)
    rw [List.foldl_cons, List.map_cons, List.foldl_cons]
    match it with
    | none => exact ih hrest acc
    | some ia =>
      have hia : ia < heap.length := hv ia (List.mem_cons_self _ _)
      rw [mergeStepH_some heap acc ia hia, ih hrest _]
      rfl

/-- C7: heap-level `_merge` allocates a brand-new cell for its result, never
writes any pre-existing cell (so `default_data` and every value read from
the candidate sources are unchanged, however often the call is repeated),
and the fresh cell holds exactly the value computed by the pure
`_merge`. -/
theorem merge_allocates_fresh_and_preserves_inputs {α : Type}
    (heap : List (PyDict α)) (items : List (Option Nat))
    (hv : ∀ ia, some ia ∈ items → ia < heap.length) :
    (mergeH heap items).2 = heap.length ∧
    (mergeH heap items).1.length = heap.length + 1 ∧
    (∀ j, j < heap.length →
      (mergeH heap items).1.getD j [] = heap.getD j []) ∧
    (mergeH heap items).1.getD heap.length [] =
      _merge (items.map (Option.map (fun ia => heap.getD ia []))) := by
  have key : (mergeH heap items).1 =
      heap ++ [(items.map (Option.map (fun ia => heap.getD ia []))).foldl mergeStep []] :=
    mergeH_foldl heap items hv []
  refine ⟨rfl, ?_, ?_, ?_⟩
  · rw [key]; simp
  · intro j hj
    rw [key]
    exact getD_append_left heap _ j [] hj
  · rw [key, getD_append_self]
    rfl

/-- C7 witness: a two-cell heap merged through addresses `[0, 1]`. -/
theorem merge_allocates_fresh_and_preserves_inputs_witness :
    (mergeH [[("a", 1)], [("b", 2)]] [some 0, some 1]).2 = 2 ∧
    (mergeH [[("a", 1)], [("b", 2)]] [some 0, some 1]).1.length = 2 + 1 ∧
    (∀ j, j < 2 →
      (mergeH [[("a", 1)], [("b", 2)]] [some 0, some 1]).1.getD j [] =
        [[("a", 1)], [("b", 2)]].getD j []) ∧
    (mergeH [[("a", 1)], [("b", 2)]] [some 0, some 1]).1.getD 2 [] =
      _merge ([some 0, some 1].map
        (Option.map (fun ia => [[("a", 1)], [("b", 2)]].getD ia []))) :=
  merge_allocates_fresh_and_preserves_inputs [[("a", 1)], [("b", 2)]]
    [some 0, some 1] (by
      intro ia hia
      simp only [List.mem_cons, List.not_mem_nil, or_false, Option.some.injEq] at hia
      rcases hia with rfl | rfl <;> decide)

/-! ### The tagging decorator (C8, C9) -/

theorem heapGetF_set_self {α : Type} (funcs : List (Obj α)) (a : Nat) (o : Obj α)
    (h : a < funcs.length) : heapGetF (funcs.set a o) a = o := by
  simp [heapGetF, List.getD_eq_getElem?_getD, List.getElem?_set_self, h]

/-- C8: `use_data(**data)` returns the very same function object (the same
heap address), and afterwards every `(name, value)` pair of the kwargs is
readable back off the function with `getattr`; when the function's name
passes the test-name check, the `functions.py` variant does exactly the
same. -/
theorem use_data_identity_and_attaches_attributes {α : Type}
    (funcs : List (Obj α)) (data : PyDict (Attr α)) (a : Nat)
    (ha : a < funcs.length) (hnd : keysNodup data) :
    ((Init.use_data data funcs a).2 = a ∧
      ∀ kv ∈ data,
        objGetattr (heapGetF (Init.use_data data funcs a).1 a) kv.1 = some kv.2) ∧
    (pyStartsWith (heapGetF funcs a).name "test" = true →
      Functions.use_data data funcs a = .ok (Init.use_data data funcs a)) := by
  refine ⟨⟨rfl, ?_⟩, ?_⟩
  · intro kv hkv
    show objGetattr (heapGetF (funcs.set a (setattrs (heapGetF funcs a) data)) a)
      kv.1 = some kv.2
    rw [heapGetF_set_self _ _ _ ha]
    show dictGet (dictUpdate (heapGetF funcs a).attrs data) kv.1 = some kv.2
    rw [dictGet_dictUpdate hnd,
      dictGet_of_mem_nodup hnd (show (kv.1, kv.2) ∈ data by rw [Prod.mk.eta]; exact hkv)]
    rfl
  · intro hname
    unfold Functions.use_data
    rw [if_pos hname]
    rfl

/-- C8 witness: tagging a one-function heap with one dict-valued kwarg. -/
theorem use_data_identity_and_attaches_attributes_witness :
    ((Init.use_data ([("cd", .dict [("a", 1)])] : PyDict (Attr Nat))
        [⟨"test_foo", []⟩] 0).2 = 0 ∧
      ∀ kv ∈ ([("cd", .dict [("a", 1)])] : PyDict (Attr Nat)),
        objGetattr (heapGetF (Init.use_data [("cd", .dict [("a", 1)])]
          [⟨"test_foo", []⟩] 0).1 0) kv.1 = some kv.2) ∧
    (pyStartsWith (heapGetF ([⟨"test_foo", []⟩] : List (Obj Nat)) 0).name "test" = true →
      Functions.use_data [("cd", .dict [("a", 1)])] [⟨"test_foo", []⟩] 0 =
        .ok (Init.use_data [("cd", .dict [("a", 1)])] [⟨"test_foo", []⟩] 0)) :=
  use_data_identity_and_attaches_attributes [⟨"test_foo", []⟩]
    [("cd", .dict [("a", 1)])] 0 (by decide) (by decide)

/-- C9: the `functions.py` decorator asserts the function name starts with
"test" before attaching anything: a non-test name makes it raise
`AssertionError('use_data can be used only for tests')` (returning no
modified heap), and a test name makes it succeed on the same function
object. -/
theorem use_data_requires_test_name {α : Type}
    (funcs : List (Obj α)) (data : PyDict (Attr α)) (a : Nat) :
    (pyStartsWith (heapGetF funcs a).name "test" = false →
      Functions.use_data data funcs a =
        .error (.assertionFailed "use_data can be used only for tests")) ∧
    (pyStartsWith (heapGetF funcs a).name "test" = true →
      ∃ funcs2, Functions.use_data data funcs a = .ok (funcs2, a)) := by
  constructor
  · intro h
    unfold Functions.use_data
    rw [if_neg (fun hh => Bool.false_ne_true (h ▸ hh))]
  · intro h
    exact ⟨_, by unfold Functions.use_data; rw [if_pos h]⟩

/-- C9 witness: the decorator rejects a function named "foo" and accepts
one named "test_foo". -/
theorem use_data_requires_test_name_witness :
    Functions.use_data ([("cd", .dict [("a", 1)])] : PyDict (Attr Nat))
      [⟨"foo", []⟩] 0 =
      .error (.assertionFailed "use_data can be used only for tests") ∧
    ∃ funcs2, Functions.use_data ([("cd", .dict [("a", 1)])] : PyDict (Attr Nat))
      [⟨"test_foo", []⟩] 0 = .ok (funcs2, 0) :=
  ⟨(use_data_requires_test_name [⟨"foo", []⟩] [("cd", .dict [("a", 1)])] 0).1
      (by decide),
   (use_data_requires_test_name [⟨"test_foo", []⟩] [("cd", .dict [("a", 1)])] 0).2
      (by decide)⟩

/-! ### The two near-duplicate `get_data` implementations (C10) -/

/-- C10: whenever the request carries no `param` attribute, the
`__init__.py` and `functions.py` implementations of `get_data` agree on
every attribute name and every default (the absent param layer resolves to
an empty value that the merge skips); and there is a request carrying a
param value on which they disagree. -/
theorem init_and_functions_get_data_agree_without_param :
    (∀ (α : Type) (req : Request α) (an : String) (dd : Attr α),
      req.param = none → Init.get_data req an dd = Functions.get_data req an dd) ∧
    (∃ (req : Request Nat) (an : String) (dd : Attr Nat) (v : Attr Nat),
      req.param = some v ∧
        Init.get_data req an dd ≠ Functions.get_data req an dd) := by
  constructor
  · intro α req an dd hp
    cases dd with
    | other t => rfl
    | dict dd =>
      cases hm : getterDict req.module.name an (objGetattr req.module an) with
      | error e =>
        simp only [Init.get_data, Functions.get_data, hm, error_bind]
      | ok m =>
        cases hc : getterDict req.cls.name an (objGetattr req.cls an) with
        | error e =>
          simp only [Init.get_data, Functions.get_data, hm, ok_bind, hc, error_bind]
        | ok c =>
          cases hf : getterDict req.function.name an (objGetattr req.function an) with
          | error e =>
            simp only [Init.get_data, Functions.get_data, hm, hc, ok_bind, hf,
              error_bind]
          | ok f =>
            have hpg : getterDict "request" "param" req.param =
                .ok ([] : PyDict α) := by
              rw [hp]; rfl
            simp only [Init.get_data, Functions.get_data, hm, hc, hf, hpg, ok_bind]
            rfl
    | list dl =>
      cases hm : getterList req.module.name an (objGetattr req.module an) with
      | error e =>
        simp only [Init.get_data, Functions.get_data, hm, error_bind]
      | ok m =>
        cases hc : getterList req.cls.name an (objGetattr req.cls an) with
        | error e =>
          simp only [Init.get_data, Functions.get_data, hm, ok_bind, hc, error_bind]
        | ok c =>
          cases hf : getterList req.function.name an (objGetattr req.function an) with
          | error e =>
            simp only [Init.get_data, Functions.get_data, hm, hc, ok_bind, hf,
              error_bind]
          | ok f =>
            have hpg : getterList "request" "param" req.param =
                .ok ([] : List (PyDict α)) := by
              rw [hp]; rfl
            simp only [Init.get_data, Functions.get_data, hm, hc, hf, hpg, ok_bind]
            have hmax : maxLen [dl, m, c, f, ([] : List (PyDict α))] =
                maxLen [dl, m, c, f] := by
              simp [maxLen, List.foldl]
            have hrow : ∀ i : Nat,
                _merge ([dl, m, c, f, ([] : List (PyDict α))].map
                  (fun l => cycleNth l i)) =
                _merge ([dl, m, c, f].map (fun l => cycleNth l i)) :=
              fun i => rfl
            rw [hmax]
            simp only [hrow]
  · refine ⟨⟨⟨"mod", []⟩, ⟨"cls", []⟩, ⟨"fn", []⟩, some (.dict [("a", 1)])⟩,
      "cd", .dict [], .dict [("a", 1)], rfl, ?_⟩
    decide

/-- C10 witness: agreement on the param-free `reqD`. -/
theorem init_and_functions_get_data_agree_without_param_witness :
    Init.get_data reqD "cd" (.dict [("a", 1), ("b", 2)]) =
      Functions.get_data reqD "cd" (.dict [("a", 1), ("b", 2)]) :=
  init_and_functions_get_data_agree_without_param.1 Nat reqD "cd"
    (.dict [("a", 1), ("b", 2)]) rfl

end PytestData
